import Mathlib

/-!
Verification development for the forest-inventory calculation and statistics
pipeline (`src/utils/calculations.py`, `src/utils/statistics.py`, `src/app.py`).

Shallow embedding conventions:
* spreadsheet cells carrying CAP/HT are modelled by `Cell`: a missing value
  (pandas `NaN`, dropped by the first `dropna`), a numeric value (kept by
  `pd.to_numeric`), or a non-coercible value (turned into `NaN` by
  `pd.to_numeric(errors='coerce')` and dropped by the second `dropna`);
* machine floats are idealised as exact rationals (floats are rationals) for
  the data-shaping and aggregation layers, and as real numbers for the
  allometric formulas, which use non-integer exponents;
* Python `round(x, k)` is modelled by `round4R`/`round4`/`round2`
  (scale, round to an integer, unscale);
* IEEE `NaN` produced and silently propagated by the statistics engine
  (pandas `var(ddof=1)` on fewer than two samples, `scipy.stats.t.ppf` at
  zero degrees of freedom) is modelled by `Option` with `none` for `NaN`,
  with `NaN`-propagating arithmetic.
-/

/-- A raw spreadsheet cell in a numeric column: missing (`NaN`), numeric, or
non-coercible (a value `pd.to_numeric(errors='coerce')` maps to `NaN`). -/
inductive Cell where
  | na : Cell
  | num (q : ℚ) : Cell
  | bad : Cell
deriving DecidableEq

/-- A cell that is present and numerically coercible: exactly the cells that
survive `dropna` followed by `pd.to_numeric(errors='coerce')` and the second
`dropna` in `process_data`. -/
def Cell.isNum : Cell → Bool
  | .num _ => true
  | _ => false

/-- Numeric value of a cell (0 for the impossible non-numeric cases; only
applied to cells that passed `Cell.isNum`). -/
def Cell.toQ : Cell → ℚ
  | .num q => q
  | _ => 0

/-- One raw input row restricted to the columns `process_data` validates:
`CAP (cm)` and `HT (m)`. -/
structure RawRow where
  cap : Cell
  ht : Cell
deriving DecidableEq

/-- `ForestryCalculator.calculate_dap`: `DAP = CAP / π` (DAP kept in cm). -/
noncomputable def calculate_dap (cap : ℝ) : ℝ := cap / Real.pi

/-- `ForestryCalculator.calculate_tree_volume`:
`VT = 0.000094 * DAP ** 1.830398 * HT ** 0.960913`. -/
noncomputable def calculate_tree_volume (dap_cm ht : ℝ) : ℝ :=
  0.000094 * dap_cm ^ (1.830398 : ℝ) * ht ^ (0.960913 : ℝ)

/-- `ForestryCalculator.calculate_volume_per_hectare`:
`VT_ha = (VT / form_factor) / plot_area_ha`. -/
noncomputable def calculate_volume_per_hectare (tree_volume form_factor plot_area_ha : ℝ) : ℝ :=
  (tree_volume / form_factor) / plot_area_ha

/-- `ForestryCalculator.calculate_stereo_volume`: `VT_st_ha = VT_ha * 2.65`. -/
noncomputable def calculate_stereo_volume (volume_per_ha : ℝ) : ℝ :=
  volume_per_ha * 2.65

/-- Python `round(x, 4)` on floats, idealised over the reals. -/
noncomputable def round4R (x : ℝ) : ℝ := (round (x * 10000) : ℤ) / 10000

/-- A processed row: the surviving numeric `CAP`/`HT` together with the four
derived columns `DAP (cm)`, `VT (m³)`, `VT (m³/ha)`, `VT (st/ha)` appended by
`process_data`. -/
structure ProcRow where
  cap : ℚ
  ht : ℚ
  dap : ℝ
  vt : ℝ
  vtha : ℝ
  vstha : ℝ

/-- Derivation of one processed row, as in `process_data` lines 149-169:
each derived column is computed from the unrounded previous one, and all four
are rounded to 4 decimals at the end. -/
noncomputable def mkProcRow (cap ht : ℚ) (form_factor plot_area_ha : ℝ) : ProcRow :=
  let dap := calculate_dap (cap : ℝ)
  let vt := calculate_tree_volume dap (ht : ℝ)
  let vtha := calculate_volume_per_hectare vt form_factor plot_area_ha
  let vstha := calculate_stereo_volume vtha
  ⟨cap, ht, round4R dap, round4R vt, round4R vtha, round4R vstha⟩

/-- `ForestryCalculator.process_data` after column mapping: drop rows whose
`CAP (cm)` or `HT (m)` is missing, coerce to numeric and drop coercion
failures (the two `dropna` calls around `pd.to_numeric`), then append the four
derived columns. No other filtering happens: in particular the sign of CAP/HT
is never checked here. -/
noncomputable def process_data (rows : List RawRow) (form_factor plot_area_ha : ℝ) :
    List ProcRow :=
  (rows.filter (fun r => r.cap.isNum && r.ht.isNum)).map
    (fun r => mkProcRow r.cap.toQ r.ht.toQ form_factor plot_area_ha)

/-- `ForestryCalculator.validate_input_data`, restricted to the checks on the
cell contents of `CAP (cm)` and `HT (m)` (the required-column check is not
representable in this fixed-column row model, and the raw-value comparisons
are modelled on numeric cells). Order of messages follows the source. -/
def validate_input_data (rows : List RawRow) : List String :=
  (if rows.length = 0 then ["Planilha vazia ou sem dados válidos"] else []) ++
  (if rows.any (fun r => r.cap = Cell.bad) then
    ["Valores não numéricos encontrados na coluna CAP (cm)"] else []) ++
  (if rows.any (fun r => r.ht = Cell.bad) then
    ["Valores não numéricos encontrados na coluna HT (m)"] else []) ++
  (if rows.any (fun r => match r.cap with | .num q => q ≤ 0 | _ => false) then
    ["Valores negativos ou zero encontrados na coluna CAP (cm)"] else []) ++
  (if rows.any (fun r => match r.ht with | .num q => q ≤ 0 | _ => false) then
    ["Valores negativos ou zero encontrados na coluna HT (m)"] else [])

/-- `StatisticsAnalyzer.calculate_required_plots`: keep the current plot count
when the current error is within target, otherwise
`int(np.ceil(current_plots * (current_error/target_error) ** 2))`. -/
def calculate_required_plots (current_error target_error : ℚ) (current_plots : ℤ) : ℤ :=
  if current_error ≤ target_error then current_plots
  else ⌈(current_plots : ℚ) * (current_error / target_error) ^ 2⌉

/-- Concrete processed row used to witness C1: the row produced by
`process_data` for `CAP = 2`, `HT = 3`, form factor 1, plot area 1 ha. -/
noncomputable def c1_row : ProcRow := mkProcRow (Cell.num 2).toQ (Cell.num 3).toQ 1 1

/-- Failing input for C2: a single row with numeric `CAP = -5` and `HT = 10`. -/
def c2_table : List RawRow := [⟨Cell.num (-5), Cell.num 10⟩]

/-- NaN-propagating addition on float values modelled as `Option ℝ`. -/
noncomputable def oadd : Option ℝ → Option ℝ → Option ℝ
  | some a, some b => some (a + b)
  | _, _ => none

/-- NaN-propagating subtraction. -/
noncomputable def osub : Option ℝ → Option ℝ → Option ℝ
  | some a, some b => some (a - b)
  | _, _ => none

/-- NaN-propagating multiplication. -/
noncomputable def omul : Option ℝ → Option ℝ → Option ℝ
  | some a, some b => some (a * b)
  | _, _ => none

/-- NaN-propagating division. -/
noncomputable def odiv : Option ℝ → Option ℝ → Option ℝ
  | some a, some b => some (a / b)
  | _, _ => none

/-- `pandas.Series.mean()`: NaN on an empty series. -/
noncomputable def list_mean (xs : List ℝ) : Option ℝ :=
  if xs.length = 0 then none else some (xs.sum / xs.length)

/-- `pandas.Series.var(ddof=1)`: the Bessel-corrected sample variance, which
pandas reports as NaN when fewer than two observations are available. -/
noncomputable def sample_var (xs : List ℝ) : Option ℝ :=
  if xs.length ≤ 1 then none
  else some ((xs.map (fun x => (x - xs.sum / xs.length) ^ 2)).sum / ((xs.length : ℝ) - 1))

/-- Python `round(x, 2)` on floats, idealised over the reals. -/
noncomputable def round2R (x : ℝ) : ℝ := (round (x * 100) : ℤ) / 100

/-- `pandas.Series.median()`: NaN on an empty series, middle element of the
sorted values for odd length, mean of the two middle elements otherwise. -/
noncomputable def list_median (xs : List ℝ) : Option ℝ :=
  if xs.length = 0 then none
  else
    let s := List.insertionSort (· ≤ ·) xs
    if xs.length % 2 = 1 then some (s.getD (xs.length / 2) 0)
    else some ((s.getD (xs.length / 2 - 1) 0 + s.getD (xs.length / 2) 0) / 2)

/-- The dictionary returned by `StatisticsAnalyzer.calculate_statistics`
(field `n_trees` actually holds the sample size of the per-plot series, as in
the source). `Option ℝ` fields model floats that can be NaN. -/
structure StatsOut where
  n_trees : ℕ
  mean : Option ℝ
  variance : Option ℝ
  std_dev : Option ℝ
  cv : Option ℝ
  standard_error : Option ℝ
  ci_lower : Option ℝ
  ci_upper : Option ℝ
  sampling_error : Option ℝ
  minimum : Option ℝ
  maximum : Option ℝ
  median : Option ℝ
  t_critical : Option ℝ
  margin_of_error : Option ℝ
  expansion_factor : ℝ
  confidence_level : ℝ

/-- `StatisticsAnalyzer.calculate_statistics` from the per-plot volume series
onward (lines 53-107). `tPpf df` stands for the finite value
`scipy.stats.t.ppf(0.95, df)` for `df ≥ 1`; scipy returns NaN for
`df ≤ 0`, modelled by the `n - 1 = 0` guard producing `none`. The guards
`if mean != 0` are false in Python only when the mean is exactly zero (NaN
compares unequal to 0), hence the `= some 0` tests. Every statistic is
rounded at the end, as in the source; `round` of NaN is NaN. -/
noncomputable def calculate_statistics (tPpf : ℕ → ℝ) (volume_data : List ℝ)
    (plot_area total_area : ℝ) (num_plots : ℕ) : StatsOut :=
  let n := volume_data.length
  let mean := list_mean volume_data
  let variance := sample_var volume_data
  let std_dev := variance.map Real.sqrt
  let cv := if mean = some 0 then some 0 else omul (odiv std_dev mean) (some 100)
  let standard_error := std_dev.map (fun s => s / Real.sqrt n)
  let t_critical := if n - 1 = 0 then none else some (tPpf (n - 1))
  let margin_of_error := omul t_critical standard_error
  let ci_lower := osub mean margin_of_error
  let ci_upper := oadd mean margin_of_error
  let sampling_error :=
    if mean = some 0 then some 0 else omul (odiv margin_of_error mean) (some 100)
  { n_trees := n
    mean := mean.map round4R
    variance := variance.map round4R
    std_dev := std_dev.map round4R
    cv := cv.map round2R
    standard_error := standard_error.map round4R
    ci_lower := ci_lower.map round4R
    ci_upper := ci_upper.map round4R
    sampling_error := sampling_error.map round2R
    minimum := volume_data.min?.map round4R
    maximum := volume_data.max?.map round4R
    median := (list_median volume_data).map round4R
    t_critical := t_critical.map round4R
    margin_of_error := margin_of_error.map round4R
    expansion_factor := total_area / (plot_area * num_plots)
    confidence_level := 0.90 }

/-- Cut a list into consecutive chunks of the given sizes (the accumulated
`start_idx`/`end_idx` slicing pattern shared by both fallback loops). -/
def chunksBySizes {α : Type} : List α → List ℕ → List (List α)
  | _, [] => []
  | xs, s :: ss => xs.take s :: chunksBySizes (xs.drop s) ss

/-- Chunk sizes of `calculate_plot_averages_fallback` (`src/app.py` lines
306-356): `trees_per_plot = total // num_plots`, and the first
`total % num_plots` plots receive one extra tree (`plot_num <= remaining`). -/
def app_fallback_sizes (total num_plots : ℕ) : List ℕ :=
  (List.range num_plots).map (fun i =>
    if i < total % num_plots then total / num_plots + 1 else total / num_plots)

/-- Modelled from the spec: "partition the table positionally into N
contiguous, nearly-equal-size chunks (remainder rows distributed to the
earliest chunks, one extra row each)" — the chunk-size sequence this rule
dictates, for comparison against the source's two fallback partitions. -/
def claimed_fallback_sizes (total num_plots : ℕ) : List ℕ :=
  (List.range num_plots).map (fun i =>
    if i < total % num_plots then total / num_plots + 1 else total / num_plots)

/-- The positional partition performed by `calculate_plot_averages_fallback`:
successive slices whose sizes are `app_fallback_sizes`. -/
def calculate_plot_averages_fallback_chunks {α : Type} (xs : List α) (num_plots : ℕ) :
    List (List α) :=
  chunksBySizes xs (app_fallback_sizes xs.length num_plots)

/-- The positional partition performed by the fallback branch of
`calculate_statistics` (`src/utils/statistics.py` lines 36-51):
`start_idx = i * trees_per_plot`, `end_idx = start_idx + trees_per_plot`,
except that the last plot takes everything up to the end
(`if i == num_plots - 1: end_idx = total_trees`). -/
def stats_fallback_chunks {α : Type} (xs : List α) (num_plots : ℕ) : List (List α) :=
  (List.range num_plots).map (fun i =>
    if i = num_plots - 1 then xs.drop (i * (xs.length / num_plots))
    else (xs.drop (i * (xs.length / num_plots))).take (xs.length / num_plots))

/-- The per-plot volume sums the statistics fallback feeds into the engine. -/
noncomputable def stats_fallback_plot_volumes (xs : List ℝ) (num_plots : ℕ) : List ℝ :=
  (stats_fallback_chunks xs num_plots).map List.sum

/-- Chunk sizes actually produced by the statistics fallback: every chunk has
`total // num_plots` rows except the last, which takes all remaining rows. -/
def stats_fallback_sizes (total num_plots : ℕ) : List ℕ :=
  List.replicate (num_plots - 1) (total / num_plots)
    ++ [total - (num_plots - 1) * (total / num_plots)]

/-- Python `str.upper()` restricted to the alphabets appearing in this
code base: ASCII plus the accented Portuguese letters of the header keywords. -/
def upperChar (c : Char) : Char :=
  if c = 'á' then 'Á' else if c = 'à' then 'À' else if c = 'â' then 'Â'
  else if c = 'ã' then 'Ã' else if c = 'é' then 'É' else if c = 'ê' then 'Ê'
  else if c = 'í' then 'Í' else if c = 'ó' then 'Ó' else if c = 'ô' then 'Ô'
  else if c = 'õ' then 'Õ' else if c = 'ú' then 'Ú' else if c = 'ç' then 'Ç'
  else c.toUpper

/-- `str.upper()` on a whole string. -/
def upperStr (s : String) : String := ⟨s.data.map upperChar⟩

/-- Whether the first character list starts the second one. -/
def leadsWith : List Char → List Char → Bool
  | [], _ => true
  | _ :: _, [] => false
  | a :: as, b :: bs => a == b && leadsWith as bs

/-- Whether the first character list occurs contiguously in the second
(Python's `pat in s`). -/
def hasSub (pat : List Char) : List Char → Bool
  | [] => pat.isEmpty
  | c :: cs => leadsWith pat (c :: cs) || hasSub pat cs

/-- Python's `pat in s.upper()` as used by all header scans. -/
def containsUpper (pat s : String) : Bool := hasSub pat.data (upperStr s).data

/-- The species-column test of `calculate_species_volume_summary` and
`calculate_species_count_table`: any of the four keywords occurs in the
upper-cased header. -/
def isSpeciesHeader (h : String) : Bool :=
  ["NOME COMUM", "ESPÉCIE", "SPECIES", "NOME CIENTÍFICO"].any (fun k => containsUpper k h)

/-- The species-column scan: the first header matching a species keyword
(`for col in results_df.columns: ... break`). -/
def species_column (headers : List String) : Option String :=
  headers.find? isSpeciesHeader

/-- A species cell: missing (`NaN`) or a string label. -/
inductive SCell where
  | na : SCell
  | val (s : String) : SCell
deriving DecidableEq

/-- A processed tree row as seen by the aggregators in `src/app.py`:
`cells` is the row's value in each (species-candidate) column, and the four
numeric columns are accessed by their fixed names. -/
structure SRow where
  cells : String → SCell
  dap : ℚ
  ht : ℚ
  vt : ℚ
  vtha : ℚ

/-- A processed table: its column headers plus its rows. -/
structure STable where
  headers : List String
  rows : List SRow

/-- The project configuration fields the aggregators read. -/
structure Config where
  plot_area : ℚ
  total_sampled_area : ℚ
  total_area : ℚ
  num_plots : ℕ

/-- Distinct keys of a list in order of first appearance, with an explicit
seen-accumulator (the distinct group keys of a `groupby`). -/
def uniqueKeysAux {α K : Type} [DecidableEq K] (key : α → K) : List K → List α → List K
  | _, [] => []
  | seen, x :: xs =>
      if key x ∈ seen then uniqueKeysAux key seen xs
      else key x :: uniqueKeysAux key (key x :: seen) xs

/-- Distinct keys of a list in order of first appearance. -/
def uniqueKeys {α K : Type} [DecidableEq K] (key : α → K) (xs : List α) : List K :=
  uniqueKeysAux key [] xs

/-- The label of a species cell, if present. -/
def sCellVal? : SCell → Option String
  | .na => none
  | .val s => some s

/-- The distinct species labels of a table (pandas `groupby` drops `NaN`
keys, so only present labels form groups). -/
def speciesKeys (rows : List SRow) (col : String) : List String :=
  uniqueKeys id (rows.filterMap (fun r => sCellVal? (r.cells col)))

/-- The rows of one species group. -/
def speciesGroup (rows : List SRow) (col s : String) : List SRow :=
  rows.filter (fun r => r.cells col == SCell.val s)

/-- One output row of `calculate_species_volume_summary`, in the order of
`final_columns`: species, n/ha, n total, mean DAP, mean height, summed VT,
summed VT per hectare, extrapolated volume for the total area. -/
structure SpeciesRow where
  species : String
  nha : ℚ
  ntotal : ℚ
  dapMean : ℚ
  htMean : ℚ
  vtSum : ℚ
  vthaSum : ℚ
  vAreaTotal : ℚ
deriving DecidableEq

/-- The aggregation `calculate_species_volume_summary` performs for one
species group (`src/app.py` lines 36-62). -/
def mkSpeciesRow (rows : List SRow) (col : String) (cfg : Config) (s : String) : SpeciesRow :=
  let g := speciesGroup rows col s
  let cnt : ℚ := g.length
  { species := s
    nha := cnt / cfg.total_sampled_area
    ntotal := cnt / cfg.total_sampled_area * cfg.total_area
    dapMean := (g.map SRow.dap).sum / cnt
    htMean := (g.map SRow.ht).sum / cnt
    vtSum := (g.map SRow.vt).sum
    vthaSum := (g.map SRow.vtha).sum
    vAreaTotal := (g.map SRow.vtha).sum * cfg.total_area }

/-- The descending-by-summed-per-hectare-volume order of the species summary
(`sort_values('VT (m³)/ha', ascending=False)`). -/
def speciesGE (a b : SpeciesRow) : Prop := b.vthaSum ≤ a.vthaSum

instance : DecidableRel speciesGE :=
  fun a b => inferInstanceAs (Decidable (b.vthaSum ≤ a.vthaSum))

instance : IsTotal SpeciesRow speciesGE := ⟨fun a b => le_total b.vthaSum a.vthaSum⟩

instance : IsTrans SpeciesRow speciesGE := ⟨fun _ _ _ hab hbc => le_trans hbc hab⟩

/-- `calculate_species_volume_summary` (`src/app.py` lines 9-71): find the
species column; return an empty table when none is found or the column is
entirely empty; otherwise aggregate per species and sort descending by the
summed per-hectare volume. -/
def calculate_species_volume_summary (t : STable) (cfg : Config) : List SpeciesRow :=
  match species_column t.headers with
  | none => []
  | some col =>
      if t.rows.all (fun r => r.cells col == SCell.na) then []
      else List.insertionSort speciesGE
        ((speciesKeys t.rows col).map (mkSpeciesRow t.rows col cfg))

/-- One output row of `calculate_species_count_table`. -/
structure CountRow where
  species : String
  qty : ℕ
deriving DecidableEq

/-- The descending-count order of the species count table. -/
def countGE (a b : CountRow) : Prop := b.qty ≤ a.qty

instance : DecidableRel countGE :=
  fun a b => inferInstanceAs (Decidable (b.qty ≤ a.qty))

instance : IsTotal CountRow countGE := ⟨fun a b => le_total b.qty a.qty⟩

instance : IsTrans CountRow countGE := ⟨fun _ _ _ hab hbc => le_trans hbc hab⟩

/-- `calculate_species_count_table` (`src/app.py` lines 73-101): same guard
as the volume summary, then `value_counts` sorted descending by count. -/
def calculate_species_count_table (t : STable) : List CountRow :=
  match species_column t.headers with
  | none => []
  | some col =>
      if t.rows.all (fun r => r.cells col == SCell.na) then []
      else List.insertionSort countGE
        ((speciesKeys t.rows col).map
          (fun s => ⟨s, (speciesGroup t.rows col s).length⟩))

/-- Python `round(x, 4)` on floats, idealised over the rationals. -/
def round4 (q : ℚ) : ℚ := (round (q * 10000) : ℤ) / 10000

/-- Python `round(x, 2)` on floats, idealised over the rationals. -/
def round2 (q : ℚ) : ℚ := (round (q * 100) : ℤ) / 100

/-- A processed tree row as seen by the plot aggregator: the plot identifier
(the detected UA column's value) and the numeric columns it reads. -/
structure PRow where
  plot : String
  dap : ℚ
  ht : ℚ
  vt : ℚ
deriving DecidableEq

/-- One row of the plot-averages table; `dapM`/`htM` are `none` (`NaN`) on
the synthetic Total row. -/
structure PlotRow where
  parcela : String
  dapM : Option ℚ
  htM : Option ℚ
  vt : ℚ
deriving DecidableEq

/-- Distinct plot identifiers in order of first appearance. -/
def plotKeys (rows : List PRow) : List String := uniqueKeys PRow.plot rows

/-- The rows of one plot group. -/
def plotGroup (rows : List PRow) (k : String) : List PRow :=
  rows.filter (fun r => r.plot == k)

/-- Summed (unrounded) individual tree volume of one plot group. -/
def plotVtSum (rows : List PRow) (k : String) : ℚ :=
  ((plotGroup rows k).map PRow.vt).sum

/-- The per-plot row built by `calculate_plot_averages_table`
(`src/app.py` lines 262-284): mean DAP rounded to 4 decimals, mean height
rounded to 2, summed tree volume rounded to 2. -/
def mkPlotRow (rows : List PRow) (k : String) : PlotRow :=
  let g := plotGroup rows k
  ⟨k, some (round4 ((g.map PRow.dap).sum / g.length)),
    some (round2 ((g.map PRow.ht).sum / g.length)),
    round2 (plotVtSum rows k)⟩

/-- `calculate_plot_averages_table` (`src/app.py` lines 231-304), primary
path: group by the plot identifier, build one row per plot, and append a
"Total" row whose volume is the rounded sum of the (already rounded)
per-plot volumes; NaN for its other numeric columns. -/
def calculate_plot_averages_table (rows : List PRow) : List PlotRow :=
  let stats := (plotKeys rows).map (mkPlotRow rows)
  if stats.isEmpty then stats
  else stats ++ [⟨"Total", none, none, round2 ((stats.map PlotRow.vt).sum)⟩]

/-- The candidate-name loop of `detect_and_map_columns` for unmapped headers:
keep the original name, appending `_1`, `_2`, … until it collides with no
already-assigned column name. Fuel-bounded (the fuel is always sufficient). -/
def freshNameGo (orig : String) (existing : List String) : ℕ → ℕ → String
  | 0, _ => orig
  | fuel + 1, counter =>
      let cand := if counter = 0 then orig else orig ++ "_" ++ toString counter
      if cand ∈ existing then freshNameGo orig existing fuel (counter + 1) else cand

/-- First non-colliding name for an unmapped header. -/
def freshName (orig : String) (existing : List String) : String :=
  freshNameGo orig existing (existing.length + 1) 0

/-- A whitespace test for `str.strip()`. -/
def isSpaceChar (c : Char) : Bool := c = ' ' || c = '\t' || c = '\n' || c = '\r'

/-- Python `str.strip()`: drop leading and trailing whitespace. -/
def trimStr (s : String) : String :=
  ⟨((s.data.dropWhile isSpaceChar).reverse.dropWhile isSpaceChar).reverse⟩

/-- The header-renaming loop of `detect_and_map_columns` (`src/app.py` lines
392-435): for each header in order, the first matching rule whose canonical
target is still unclaimed renames it; otherwise the original name is kept
(deduplicated). `used` holds claimed canonical names, `out` the assigned
names so far in reverse. -/
def mapHeadersGo : List String → List String → List String → List String
  | [], _, out => out.reverse
  | h :: hs, used, out =>
      let o := trimStr h
      let u := upperStr o
      if (containsUpper "N°" o || u ∈ ["N", "NO", "NUM", "NUMERO", "NÚMERO"])
          && !(used.contains "Nº da árvore") then
        mapHeadersGo hs ("Nº da árvore" :: used) ("Nº da árvore" :: out)
      else if (containsUpper "NOME" o && containsUpper "COMUM" o)
          && !(used.contains "Nome comum") then
        mapHeadersGo hs ("Nome comum" :: used) ("Nome comum" :: out)
      else if (containsUpper "NOME" o
            && (containsUpper "CIENTÍFICO" o || containsUpper "CIENTIFICO" o))
          && !(used.contains "Nome científico") then
        mapHeadersGo hs ("Nome científico" :: used) ("Nome científico" :: out)
      else if containsUpper "CAP" o && !(used.contains "CAP (cm)") then
        mapHeadersGo hs ("CAP (cm)" :: used) ("CAP (cm)" :: out)
      else if (containsUpper "HT" o || containsUpper "ALTURA" o)
          && !(used.contains "HT (m)") then
        mapHeadersGo hs ("HT (m)" :: used) ("HT (m)" :: out)
      else
        mapHeadersGo hs used (freshName o out :: out)

/-- The header list after `detect_and_map_columns`: renamed headers in their
original positions, and when a common-name or scientific-name column exists,
the composite column `Nome comum/científico` assigned (appended at the end
when not already a column, overwritten in place otherwise). -/
def detect_and_map_headers (hs : List String) : List String :=
  let m := mapHeadersGo hs [] []
  if "Nome comum" ∈ m ∨ "Nome científico" ∈ m then
    (if "Nome comum/científico" ∈ m then m else m ++ ["Nome comum/científico"])
  else m

/-- Concrete table used to witness C7: one species, two trees. -/
def c7_table : STable :=
  ⟨["Nome comum"],
    [⟨fun _ => SCell.val "Ipe", 10, 5, 1/10, 2⟩, ⟨fun _ => SCell.val "Ipe", 10, 5, 1/10, 2⟩]⟩

/-- Configuration used to witness C7: 0.04 ha sampled, 1 ha to clear. -/
def c7_cfg : Config := ⟨1/25, 1/25, 1, 1⟩

/-- Concrete table used to witness C8: two species with distinct summed
per-hectare volumes. -/
def c8_table : STable :=
  ⟨["Nome comum"],
    [⟨fun _ => SCell.val "Ipe", 10, 5, 1/10, 2⟩, ⟨fun _ => SCell.val "Jatoba", 12, 6, 1/5, 5⟩]⟩

/-- Configuration used to witness C8. -/
def c8_cfg : Config := ⟨1/25, 1/25, 1, 1⟩

/-- Concrete table used to witness C9: no species-like header at all. -/
def c9_table : STable := ⟨["CAP (cm)", "HT (m)"], [⟨fun _ => SCell.val "x", 1, 1, 1, 1⟩]⟩

/-- Concrete table used to witness C9: a species column that is entirely
empty. -/
def c9_table2 : STable := ⟨["Nome comum"], [⟨fun _ => SCell.na, 1, 1, 1, 1⟩]⟩

/-- Configuration used to witness C9. -/
def c9_cfg : Config := ⟨1, 1, 1, 1⟩

/-- C5: `calculate_required_plots` returns the current plot count unchanged
when `current_error ≤ target_error`, otherwise
`ceil(current_plots * (current_error/target_error)^2)`; in particular
`calculate_required_plots 40 20 5 = 20`. -/
theorem spec_c5 (current_error target_error : ℚ) (current_plots : ℤ) :
    (current_error ≤ target_error →
      calculate_required_plots current_error target_error current_plots = current_plots)
    ∧ (target_error < current_error →
      calculate_required_plots current_error target_error current_plots =
        ⌈(current_plots : ℚ) * (current_error / target_error) ^ 2⌉)
    ∧ calculate_required_plots 40 20 5 = 20 := by
  refine ⟨fun h => ?_, fun h => ?_, ?_⟩
  · simp [calculate_required_plots, h]
  · simp [calculate_required_plots, not_le.mpr h]
  · have h1 : ((5 : ℤ) : ℚ) * ((40 : ℚ) / 20) ^ 2 = ((20 : ℤ) : ℚ) := by norm_num
    rw [calculate_required_plots, if_neg (by norm_num), h1, Int.ceil_intCast]

/-- Witness for C5: both branches at concrete inputs, via `spec_c5`. -/
theorem spec_c5_witness :
    calculate_required_plots 10 20 7 = 7 ∧ calculate_required_plots 40 20 5 = 20 :=
  ⟨(spec_c5 10 20 7).1 (by norm_num), (spec_c5 40 20 5).2.2⟩

/-- C1: every row surviving validation in `process_data` carries the four
derived columns `DAP = CAP/π`,
`VT = 0.000094 * DAP^1.830398 * HT^0.960913` (DAP in cm),
`VT/ha = (VT / form_factor) / plot_area_ha` and
`VT_st/ha = VT/ha * 2.65`, each rounded to 4 decimal places at the end
(derived quantities are computed from unrounded predecessors). -/
theorem spec_c1 (rows : List RawRow) (form_factor plot_area_ha : ℝ) (r : ProcRow)
    (hr : r ∈ process_data rows form_factor plot_area_ha) :
    r.dap = round4R ((r.cap : ℝ) / Real.pi)
    ∧ r.vt = round4R (0.000094 * ((r.cap : ℝ) / Real.pi) ^ (1.830398 : ℝ)
        * (r.ht : ℝ) ^ (0.960913 : ℝ))
    ∧ r.vtha = round4R ((0.000094 * ((r.cap : ℝ) / Real.pi) ^ (1.830398 : ℝ)
        * (r.ht : ℝ) ^ (0.960913 : ℝ) / form_factor) / plot_area_ha)
    ∧ r.vstha = round4R (((0.000094 * ((r.cap : ℝ) / Real.pi) ^ (1.830398 : ℝ)
        * (r.ht : ℝ) ^ (0.960913 : ℝ) / form_factor) / plot_area_ha) * 2.65) := by
  rcases List.mem_map.mp hr with ⟨r0, _, rfl⟩
  exact ⟨rfl, rfl, rfl, rfl⟩

/-- Witness for C1: the row `CAP = 2`, `HT = 3` survives validation and its
four derived columns satisfy the formulas of `spec_c1`. -/
theorem spec_c1_witness :
    c1_row ∈ process_data [⟨Cell.num 2, Cell.num 3⟩] 1 1
    ∧ (c1_row.dap = round4R ((c1_row.cap : ℝ) / Real.pi)
      ∧ c1_row.vt = round4R (0.000094 * ((c1_row.cap : ℝ) / Real.pi) ^ (1.830398 : ℝ)
          * (c1_row.ht : ℝ) ^ (0.960913 : ℝ))
      ∧ c1_row.vtha = round4R ((0.000094 * ((c1_row.cap : ℝ) / Real.pi) ^ (1.830398 : ℝ)
          * (c1_row.ht : ℝ) ^ (0.960913 : ℝ) / 1) / 1)
      ∧ c1_row.vstha = round4R (((0.000094 * ((c1_row.cap : ℝ) / Real.pi) ^ (1.830398 : ℝ)
          * (c1_row.ht : ℝ) ^ (0.960913 : ℝ) / 1) / 1) * 2.65)) :=
  have hm : c1_row ∈ process_data [⟨Cell.num 2, Cell.num 3⟩] 1 1 :=
    List.mem_singleton.mpr rfl
  ⟨hm, spec_c1 [⟨Cell.num 2, Cell.num 3⟩] 1 1 c1_row hm⟩

/-- C2 (code bug): `process_data` never checks the sign of CAP or HT, so a
row with numeric `CAP = -5 ≤ 0` survives validation and reaches the output
table, even though `validate_input_data` itself reports non-positive CAP as a
validation error. -/
theorem spec_c2_code_bug :
    (process_data c2_table 1 1).map ProcRow.cap = [(-5 : ℚ)]
    ∧ ¬ (0 : ℚ) < -5
    ∧ "Valores negativos ou zero encontrados na coluna CAP (cm)"
        ∈ validate_input_data c2_table := by
  refine ⟨rfl, by norm_num, by decide⟩

/-- C3 (code bug): when the per-plot series has a single plot (as produced,
for example, by the fallback with `num_plots = 1`, whose series is the single
total `[xs.sum]`), `calculate_statistics` raises nothing and returns its
normal record in which variance, standard deviation, t value, margin of
error and both confidence bounds are silent NaN (pandas `var(ddof=1)` of one
sample and `scipy.stats.t.ppf` at 0 degrees of freedom), while other fields
such as the mean carry ordinary numbers. -/
theorem spec_c3_code_bug (tPpf : ℕ → ℝ) (v : ℝ) (xs : List ℝ)
    (plot_area total_area : ℝ) (num_plots : ℕ) :
    stats_fallback_plot_volumes xs 1 = [xs.sum]
    ∧ (calculate_statistics tPpf [v] plot_area total_area num_plots).variance = none
    ∧ (calculate_statistics tPpf [v] plot_area total_area num_plots).std_dev = none
    ∧ (calculate_statistics tPpf [v] plot_area total_area num_plots).t_critical = none
    ∧ (calculate_statistics tPpf [v] plot_area total_area num_plots).margin_of_error = none
    ∧ (calculate_statistics tPpf [v] plot_area total_area num_plots).ci_lower = none
    ∧ (calculate_statistics tPpf [v] plot_area total_area num_plots).ci_upper = none
    ∧ (calculate_statistics tPpf [v] plot_area total_area num_plots).mean = some (round4R v) := by
  refine ⟨?_, ?_, ?_, ?_, ?_, ?_, ?_, ?_⟩ <;>
    simp [stats_fallback_plot_volumes, stats_fallback_chunks, calculate_statistics,
      sample_var, list_mean, oadd, osub, omul, odiv, List.range_succ]

theorem map_length_chunksBySizes {α : Type} :
    ∀ (ss : List ℕ) (xs : List α), ss.sum ≤ xs.length →
      (chunksBySizes xs ss).map List.length = ss := by
  intro ss
  induction ss with
  | nil => intro xs _; rfl
  | cons s ss ih =>
    intro xs h
    simp only [List.sum_cons] at h
    have hs : s ≤ xs.length := le_trans (Nat.le_add_right _ _) h
    have hrest : ss.sum ≤ (xs.drop s).length := by
      rw [List.length_drop]
      omega
    simp only [chunksBySizes, List.map_cons, List.length_take, ih _ hrest,
      min_eq_left hs]

theorem join_chunksBySizes {α : Type} :
    ∀ (ss : List ℕ) (xs : List α), (chunksBySizes xs ss).flatten = xs.take ss.sum := by
  intro ss
  induction ss with
  | nil => intro xs; simp [chunksBySizes]
  | cons s ss ih =>
    intro xs
    simp only [chunksBySizes, List.flatten_cons, ih, List.sum_cons, List.take_add]

theorem sum_ite_range (q r : ℕ) :
    ∀ N : ℕ, ((List.range N).map (fun i => if i < r then q + 1 else q)).sum
      = N * q + min r N := by
  intro N
  induction N with
  | zero => simp
  | succ N ih =>
    rw [List.range_succ, List.map_append, List.sum_append, ih]
    by_cases h : N < r
    · have h1 : min r N = N := min_eq_right h.le
      have h2 : min r (N + 1) = N + 1 := min_eq_right h
      simp only [List.map_cons, List.map_nil, List.sum_cons, List.sum_nil, if_pos h, h1, h2]
      ring
    · have h1 : min r N = r := min_eq_left (Nat.le_of_not_lt h)
      have h2 : min r (N + 1) = r := min_eq_left (le_trans (Nat.le_of_not_lt h) (Nat.le_succ N))
      simp only [List.map_cons, List.map_nil, List.sum_cons, List.sum_nil, if_neg h, h1, h2]
      ring

theorem app_fallback_sizes_sum (n N : ℕ) (h : 1 ≤ N) :
    (app_fallback_sizes n N).sum = n := by
  rw [app_fallback_sizes, sum_ite_range, min_eq_left (Nat.mod_lt n h).le, Nat.div_add_mod]

theorem chunksBySizes_append_singleton {α : Type} :
    ∀ (ss : List ℕ) (t : ℕ) (xs : List α),
      chunksBySizes xs (ss ++ [t]) = chunksBySizes xs ss ++ [(xs.drop ss.sum).take t] := by
  intro ss
  induction ss with
  | nil => intro t xs; simp [chunksBySizes]
  | cons s ss ih =>
    intro t xs
    show List.take s xs :: chunksBySizes (xs.drop s) (ss ++ [t]) = _
    rw [ih]
    simp [chunksBySizes, List.drop_drop, List.sum_cons, Nat.add_comm]

theorem slices_eq_chunks {α : Type} (q : ℕ) :
    ∀ (k : ℕ) (xs : List α),
      (List.range k).map (fun i => (xs.drop (i * q)).take q)
        = chunksBySizes xs (List.replicate k q) := by
  intro k
  induction k with
  | zero => intro xs; rfl
  | succ k ih =>
    intro xs
    rw [List.range_succ_eq_map, List.map_cons, List.map_map]
    have h1 : ((fun i => (xs.drop (i * q)).take q) ∘ Nat.succ)
        = fun i => ((xs.drop q).drop (i * q)).take q := by
      funext i
      simp only [Function.comp_apply, List.drop_drop, Nat.succ_mul, Nat.add_comm]
    rw [h1, ih ((xs.drop q)), List.replicate_succ]
    simp [chunksBySizes]

theorem stats_fallback_chunks_eq {α : Type} (xs : List α) (N : ℕ) (h : 1 ≤ N) :
    stats_fallback_chunks xs N = chunksBySizes xs (stats_fallback_sizes xs.length N) := by
  obtain ⟨M, rfl⟩ : ∃ M, N = M + 1 := ⟨N - 1, (Nat.succ_pred_eq_of_pos h).symm⟩
  have hM : M + 1 - 1 = M := rfl
  rw [stats_fallback_chunks, stats_fallback_sizes, hM, List.range_succ, List.map_append]
  have h1 : (List.range M).map (fun i =>
      if i = M then xs.drop (i * (xs.length / (M + 1)))
      else (xs.drop (i * (xs.length / (M + 1)))).take (xs.length / (M + 1)))
      = (List.range M).map (fun i =>
        (xs.drop (i * (xs.length / (M + 1)))).take (xs.length / (M + 1))) := by
    apply List.map_congr_left
    intro i hi
    rw [if_neg (Nat.ne_of_lt (List.mem_range.mp hi))]
  rw [h1, slices_eq_chunks, chunksBySizes_append_singleton]
  have h2 : (List.replicate M (xs.length / (M + 1))).sum = M * (xs.length / (M + 1)) := by
    simp [List.sum_replicate, smul_eq_mul]
  have h3 : M * (xs.length / (M + 1)) ≤ xs.length :=
    le_trans (Nat.mul_le_mul_right _ (Nat.le_succ M))
      (by rw [Nat.mul_comm]; exact Nat.div_mul_le_self _ _)
  have h4 : ((xs.drop (M * (xs.length / (M + 1)))).take
      (xs.length - M * (xs.length / (M + 1))))
      = xs.drop (M * (xs.length / (M + 1))) := by
    apply List.take_of_length_le
    rw [List.length_drop]
  simp only [List.map_cons, List.map_nil, if_pos, h2, h4]

theorem stats_fallback_sizes_sum (n N : ℕ) (_h : 1 ≤ N) :
    (stats_fallback_sizes n N).sum = n := by
  have hle : (N - 1) * (n / N) ≤ n :=
    le_trans (Nat.mul_le_mul_right _ (Nat.sub_le N 1))
      (by rw [Nat.mul_comm]; exact Nat.div_mul_le_self _ _)
  simp [stats_fallback_sizes, List.sum_replicate, smul_eq_mul]
  omega

/-- C4 (amended): for every table and every `N ≥ 1`, both fallbacks split the
table positionally into `N` contiguous chunks in existing row order; the
plot-averages fallback gives the first `total % N` chunks one extra row each
(as the claim states, and as `claimed_fallback_sizes` models from the spec),
but the statistics-engine fallback gives every chunk `total / N` rows and
dumps the whole remainder on the last chunk. -/
theorem spec_c4_amended {α : Type} (xs : List α) (N : ℕ) (hN : 1 ≤ N) :
    (calculate_plot_averages_fallback_chunks xs N).map List.length
        = app_fallback_sizes xs.length N
    ∧ (calculate_plot_averages_fallback_chunks xs N).flatten = xs
    ∧ app_fallback_sizes xs.length N = claimed_fallback_sizes xs.length N
    ∧ (stats_fallback_chunks xs N).map List.length = stats_fallback_sizes xs.length N
    ∧ (stats_fallback_chunks xs N).flatten = xs := by
  have happ : (app_fallback_sizes xs.length N).sum = xs.length :=
    app_fallback_sizes_sum _ _ hN
  have hst : (stats_fallback_sizes xs.length N).sum = xs.length :=
    stats_fallback_sizes_sum _ _ hN
  refine ⟨?_, ?_, rfl, ?_, ?_⟩
  · exact map_length_chunksBySizes _ _ (le_of_eq happ)
  · rw [calculate_plot_averages_fallback_chunks, join_chunksBySizes, happ, List.take_length]
  · rw [stats_fallback_chunks_eq xs N hN]
    exact map_length_chunksBySizes _ _ (le_of_eq hst)
  · rw [stats_fallback_chunks_eq xs N hN, join_chunksBySizes, hst, List.take_length]

/-- Witness for C4 (amended): the two fallback partitions of a concrete
7-row table into 3 plots, via `spec_c4_amended`. -/
theorem spec_c4_witness :
    1 ≤ 3
    ∧ ((calculate_plot_averages_fallback_chunks (List.range 7) 3).map List.length
        = app_fallback_sizes (List.range 7).length 3
      ∧ (calculate_plot_averages_fallback_chunks (List.range 7) 3).flatten = List.range 7
      ∧ app_fallback_sizes (List.range 7).length 3
          = claimed_fallback_sizes (List.range 7).length 3
      ∧ (stats_fallback_chunks (List.range 7) 3).map List.length
          = stats_fallback_sizes (List.range 7).length 3
      ∧ (stats_fallback_chunks (List.range 7) 3).flatten = List.range 7) :=
  ⟨by decide, spec_c4_amended (List.range 7) 3 (by decide)⟩

/-- Counterexample for C4 as stated: on a 10-row table split into 4 plots the
statistics-engine fallback produces chunk sizes 2,2,2,4 — the remainder rows
all land in the last chunk — whereas the claimed "remainder to the earliest
chunks, one extra row each" rule dictates sizes 3,3,2,2. -/
theorem spec_c4_counterexample :
    (stats_fallback_chunks (List.range 10) 4).map List.length = [2, 2, 2, 4]
    ∧ claimed_fallback_sizes 10 4 = [3, 3, 2, 2]
    ∧ (stats_fallback_chunks (List.range 10) 4).map List.length
        ≠ claimed_fallback_sizes 10 4 := by
  refine ⟨by decide, by decide, by decide⟩

theorem uniqueKeysAux_spec {α K : Type} [DecidableEq K] (key : α → K) :
    ∀ (xs : List α) (seen : List K),
      (uniqueKeysAux key seen xs).Nodup ∧ ∀ k ∈ uniqueKeysAux key seen xs, k ∉ seen := by
  intro xs
  induction xs with
  | nil => intro seen; simp [uniqueKeysAux]
  | cons x xs ih =>
    intro seen
    by_cases hx : key x ∈ seen
    · simpa [uniqueKeysAux, hx] using ih seen
    · have h2 := ih (key x :: seen)
      refine ⟨?_, ?_⟩
      · simp only [uniqueKeysAux, if_neg hx, List.nodup_cons]
        exact ⟨fun hmem => (h2.2 _ hmem) (List.mem_cons_self _ _), h2.1⟩
      · intro k hk
        simp only [uniqueKeysAux, if_neg hx, List.mem_cons] at hk
        rcases hk with rfl | hk
        · exact hx
        · exact fun hs => (h2.2 _ hk) (List.mem_cons_of_mem _ hs)

theorem uniqueKeysAux_complete {α K : Type} [DecidableEq K] (key : α → K) :
    ∀ (xs : List α) (seen : List K) (x : α), x ∈ xs →
      key x ∈ seen ∨ key x ∈ uniqueKeysAux key seen xs := by
  intro xs
  induction xs with
  | nil => intro seen x hx; cases hx
  | cons y ys ih =>
    intro seen x hx
    by_cases hy : key y ∈ seen
    · rcases List.mem_cons.mp hx with rfl | hx
      · exact Or.inl hy
      · simpa [uniqueKeysAux, hy] using ih seen x hx
    · rcases List.mem_cons.mp hx with rfl | hx
      · simp [uniqueKeysAux, hy]
      · rcases ih (key y :: seen) x hx with h | h
        · rcases List.mem_cons.mp h with h | h
          · simp [uniqueKeysAux, hy, h]
          · exact Or.inl h
        · simp [uniqueKeysAux, hy, h]

theorem uniqueKeys_nodup {α K : Type} [DecidableEq K] (key : α → K) (xs : List α) :
    (uniqueKeys key xs).Nodup :=
  (uniqueKeysAux_spec key xs []).1

theorem uniqueKeys_complete {α K : Type} [DecidableEq K] (key : α → K) (xs : List α)
    (x : α) (hx : x ∈ xs) : key x ∈ uniqueKeys key xs := by
  rcases uniqueKeysAux_complete key xs [] x hx with h | h
  · cases h
  · exact h

theorem sum_map_add_pointwise {β : Type} (l : List β) (g h : β → ℚ) :
    (l.map (fun b => g b + h b)).sum = (l.map g).sum + (l.map h).sum := by
  induction l with
  | nil => simp
  | cons b l ih => simp [ih]; ring

theorem sum_map_ite_zero {K : Type} [DecidableEq K] (k0 : K) (c : ℚ) :
    ∀ (ks : List K), k0 ∉ ks → (ks.map (fun k => if k0 = k then c else 0)).sum = 0 := by
  intro ks
  induction ks with
  | nil => simp
  | cons a ks ih =>
    intro h
    have ha : k0 ≠ a := fun hh => h (hh ▸ List.mem_cons_self a ks)
    have hks : k0 ∉ ks := fun hh => h (List.mem_cons_of_mem _ hh)
    simp [if_neg ha, ih hks]

theorem sum_map_ite_single {K : Type} [DecidableEq K] (k0 : K) (c : ℚ) :
    ∀ (ks : List K), ks.Nodup → k0 ∈ ks →
      (ks.map (fun k => if k0 = k then c else 0)).sum = c := by
  intro ks
  induction ks with
  | nil => intro _ h; cases h
  | cons a ks ih =>
    intro hnd hmem
    rcases List.mem_cons.mp hmem with rfl | hmem2
    · have hnot : k0 ∉ ks := (List.nodup_cons.mp hnd).1
      simp [sum_map_ite_zero k0 c ks hnot]
    · have ha : k0 ≠ a := by
        rintro rfl
        exact (List.nodup_cons.mp hnd).1 hmem2
      simp [if_neg ha, ih (List.nodup_cons.mp hnd).2 hmem2]

theorem sum_groups {α K : Type} [DecidableEq K] (key : α → K) (f : α → ℚ)
    (ks : List K) (hnd : ks.Nodup) :
    ∀ (xs : List α), (∀ x ∈ xs, key x ∈ ks) →
      (ks.map (fun k => ((xs.filter (fun x => key x == k)).map f).sum)).sum
        = (xs.map f).sum := by
  intro xs
  induction xs with
  | nil => simp
  | cons x xs ih =>
    intro hcov
    have hx : key x ∈ ks := hcov x (List.mem_cons_self _ _)
    have hcov' : ∀ y ∈ xs, key y ∈ ks := fun y hy => hcov y (List.mem_cons_of_mem _ hy)
    have hpt : (ks.map (fun k => (((x :: xs).filter (fun y => key y == k)).map f).sum))
        = ks.map (fun k => (if key x = k then f x else 0)
            + ((xs.filter (fun y => key y == k)).map f).sum) := by
      apply List.map_congr_left
      intro k _
      by_cases hk : key x = k
      · simp [List.filter_cons, hk]
      · simp [List.filter_cons, hk, beq_iff_eq]
    rw [hpt, sum_map_add_pointwise, sum_map_ite_single (key x) (f x) ks hnd hx, ih hcov']
    simp

theorem round2_int_div (m : ℤ) : round2 ((m : ℚ) / 100) = (m : ℚ) / 100 := by
  have h : (m : ℚ) / 100 * 100 = (m : ℚ) :=
    div_mul_cancel₀ _ (by norm_num)
  rw [round2, h, round_intCast]

theorem sum_map_round2_int {β : Type} (l : List β) (g : β → ℚ) :
    ∃ m : ℤ, (l.map (fun b => round2 (g b))).sum = (m : ℚ) / 100 := by
  induction l with
  | nil => exact ⟨0, by simp⟩
  | cons b l ih =>
    obtain ⟨m, hm⟩ := ih
    refine ⟨round (g b * 100) + m, ?_⟩
    rw [List.map_cons, List.sum_cons, hm, round2]
    push_cast
    ring

theorem round2_sum_of_round2 {β : Type} (l : List β) (g : β → ℚ) :
    round2 ((l.map (fun b => round2 (g b))).sum) = (l.map (fun b => round2 (g b))).sum := by
  obtain ⟨m, hm⟩ := sum_map_round2_int l g
  rw [hm, round2_int_div]

theorem plotKeys_ne_nil (rows : List PRow) (h : rows ≠ []) : plotKeys rows ≠ [] := by
  cases rows with
  | nil => exact absurd rfl h
  | cons r rs => simp [plotKeys, uniqueKeys, uniqueKeysAux]

/-- C6 (amended): in the plot-averages table, the per-plot volume entries are
the per-plot sums of individual tree volumes rounded to 2 decimals, and the
"Total" row carries exactly the sum of those rounded per-plot entries; the
sum of the unrounded per-plot group sums equals the sum of all individual
tree volumes exactly, but the displayed (2-decimal-rounded) per-plot totals
can differ from that raw sum by up to half a hundredth per plot, so the
claimed equality "to floating-point tolerance" holds only up to this
rounding (and fails in general, see the counterexample). -/
theorem spec_c6_amended (rows : List PRow) (h : rows ≠ []) :
    (calculate_plot_averages_table rows).dropLast.map PlotRow.vt
        = (plotKeys rows).map (fun k => round2 (plotVtSum rows k))
    ∧ (calculate_plot_averages_table rows).getLast? =
        some ⟨"Total", none, none,
          ((plotKeys rows).map (fun k => round2 (plotVtSum rows k))).sum⟩
    ∧ ((plotKeys rows).map (fun k => plotVtSum rows k)).sum = (rows.map PRow.vt).sum := by
  have hkeys : plotKeys rows ≠ [] := plotKeys_ne_nil rows h
  have hstats : ¬((plotKeys rows).map (mkPlotRow rows)).isEmpty := by
    simpa [List.isEmpty_iff] using hkeys
  have hmapvt : ((plotKeys rows).map (mkPlotRow rows)).map PlotRow.vt
      = (plotKeys rows).map (fun k => round2 (plotVtSum rows k)) := by
    rw [List.map_map]; rfl
  refine ⟨?_, ?_, ?_⟩
  · rw [calculate_plot_averages_table]
    simp only [if_neg hstats, List.dropLast_concat]
    exact hmapvt
  · rw [calculate_plot_averages_table]
    simp only [if_neg hstats, List.getLast?_concat]
    rw [hmapvt, round2_sum_of_round2]
  · exact sum_groups PRow.plot PRow.vt (plotKeys rows) (uniqueKeys_nodup _ _) rows
      (fun x hx => uniqueKeys_complete _ _ x hx)

/-- Witness for C6 (amended): a one-row table, via `spec_c6_amended`. -/
theorem spec_c6_witness :
    ([⟨"P1", 10, 5, 2⟩] : List PRow) ≠ []
    ∧ ((calculate_plot_averages_table [⟨"P1", 10, 5, 2⟩]).dropLast.map PlotRow.vt
        = (plotKeys [⟨"P1", 10, 5, 2⟩]).map
            (fun k => round2 (plotVtSum [⟨"P1", 10, 5, 2⟩] k))
      ∧ (calculate_plot_averages_table [⟨"P1", 10, 5, 2⟩]).getLast? =
          some ⟨"Total", none, none,
            ((plotKeys [⟨"P1", 10, 5, 2⟩]).map
              (fun k => round2 (plotVtSum [⟨"P1", 10, 5, 2⟩] k))).sum⟩
      ∧ ((plotKeys [⟨"P1", 10, 5, 2⟩]).map
            (fun k => plotVtSum [⟨"P1", 10, 5, 2⟩] k)).sum
          = (([⟨"P1", 10, 5, 2⟩] : List PRow).map PRow.vt).sum) :=
  ⟨by simp, spec_c6_amended [⟨"P1", 10, 5, 2⟩] (by simp)⟩

/-- Counterexample for C6 as stated: two plots each holding one tree of
volume `VT = 0.004`. The per-plot totals are rounded to 2 decimals, so the
table shows 0.00 for both plots and 0.00 in the Total row, while the sum of
the individual tree volumes is `0.008` — a discrepancy far beyond
floating-point tolerance. -/
theorem spec_c6_counterexample :
    ((calculate_plot_averages_table
        [⟨"A", 1, 1, 1/250⟩, ⟨"B", 1, 1, 1/250⟩]).dropLast.map PlotRow.vt).sum = 0
    ∧ (([⟨"A", 1, 1, 1/250⟩, ⟨"B", 1, 1, 1/250⟩] : List PRow).map PRow.vt).sum = 1/125
    ∧ ((calculate_plot_averages_table
        [⟨"A", 1, 1, 1/250⟩, ⟨"B", 1, 1, 1/250⟩]).getLast?).map PlotRow.vt = some 0
    ∧ (0 : ℚ) ≠ 1/125 := by
  refine ⟨?_, by norm_num, ?_, by norm_num⟩
  · simp [calculate_plot_averages_table, plotKeys, uniqueKeys, uniqueKeysAux, mkPlotRow,
      plotGroup, plotVtSum, round2, round4]
    norm_num
  · simp [calculate_plot_averages_table, plotKeys, uniqueKeys, uniqueKeysAux, mkPlotRow,
      plotGroup, plotVtSum, round2, round4, List.getLast?_concat]
    have hr : round ((250 : ℚ)⁻¹ * 100) = 0 := by norm_num [round_eq]
    rw [hr]
    norm_num

/-- C7: every row of the species volume summary satisfies the three derived
extrapolations — density per hectare is the group's tree count divided by the
total sampled area, the extrapolated total count is that density times the
total clearing area, and the extrapolated total volume is the group's summed
per-hectare volume times the total clearing area. -/
theorem spec_c7 (t : STable) (cfg : Config) (col : String)
    (hcol : species_column t.headers = some col)
    (r : SpeciesRow) (hr : r ∈ calculate_species_volume_summary t cfg) :
    r.nha = ((speciesGroup t.rows col r.species).length : ℚ) / cfg.total_sampled_area
    ∧ r.ntotal = r.nha * cfg.total_area
    ∧ r.vthaSum = ((speciesGroup t.rows col r.species).map SRow.vtha).sum
    ∧ r.vAreaTotal = r.vthaSum * cfg.total_area := by
  simp only [calculate_species_volume_summary, hcol] at hr
  by_cases hall : t.rows.all (fun r => r.cells col == SCell.na)
  · rw [if_pos hall] at hr; cases hr
  · rw [if_neg hall] at hr
    have hr2 : r ∈ (speciesKeys t.rows col).map (mkSpeciesRow t.rows col cfg) :=
      ((List.perm_insertionSort speciesGE _).mem_iff).mp hr
    rcases List.mem_map.mp hr2 with ⟨s, _, rfl⟩
    exact ⟨rfl, rfl, rfl, rfl⟩

/-- Witness for C7: a concrete one-species table, via `spec_c7`. -/
theorem spec_c7_witness :
    mkSpeciesRow c7_table.rows "Nome comum" c7_cfg "Ipe"
        ∈ calculate_species_volume_summary c7_table c7_cfg
    ∧ ((mkSpeciesRow c7_table.rows "Nome comum" c7_cfg "Ipe").nha
        = ((speciesGroup c7_table.rows "Nome comum"
            (mkSpeciesRow c7_table.rows "Nome comum" c7_cfg "Ipe").species).length : ℚ)
          / c7_cfg.total_sampled_area
      ∧ (mkSpeciesRow c7_table.rows "Nome comum" c7_cfg "Ipe").ntotal
        = (mkSpeciesRow c7_table.rows "Nome comum" c7_cfg "Ipe").nha * c7_cfg.total_area
      ∧ (mkSpeciesRow c7_table.rows "Nome comum" c7_cfg "Ipe").vthaSum
        = ((speciesGroup c7_table.rows "Nome comum"
            (mkSpeciesRow c7_table.rows "Nome comum" c7_cfg "Ipe").species).map SRow.vtha).sum
      ∧ (mkSpeciesRow c7_table.rows "Nome comum" c7_cfg "Ipe").vAreaTotal
        = (mkSpeciesRow c7_table.rows "Nome comum" c7_cfg "Ipe").vthaSum
          * c7_cfg.total_area) :=
  have hmem : mkSpeciesRow c7_table.rows "Nome comum" c7_cfg "Ipe"
      ∈ calculate_species_volume_summary c7_table c7_cfg := by
    simp only [calculate_species_volume_summary,
      show species_column c7_table.headers = some "Nome comum" from by decide]
    rw [if_neg (by decide)]
    exact ((List.perm_insertionSort speciesGE _).mem_iff).mpr
      (List.mem_map_of_mem _ (by decide))
  ⟨hmem, spec_c7 c7_table c7_cfg "Nome comum" (by decide) _ hmem⟩

/-- C8: the species volume summary is sorted descending by summed per-hectare
volume — each row's `VT (m³)/ha` is at least the next row's. -/
theorem spec_c8 (t : STable) (cfg : Config) (i : ℕ)
    (hi : i + 1 < (calculate_species_volume_summary t cfg).length) :
    ((calculate_species_volume_summary t cfg).get ⟨i + 1, hi⟩).vthaSum
      ≤ ((calculate_species_volume_summary t cfg).get ⟨i, Nat.lt_of_succ_lt hi⟩).vthaSum := by
  have hsorted : List.Sorted speciesGE (calculate_species_volume_summary t cfg) := by
    rcases hcol : species_column t.headers with _ | col
    · simp [calculate_species_volume_summary, hcol]
    · by_cases hall : t.rows.all (fun r => r.cells col == SCell.na)
      · simp [calculate_species_volume_summary, hcol, hall]
      · simp only [calculate_species_volume_summary, hcol, if_neg hall]
        exact List.sorted_insertionSort speciesGE _
  exact List.pairwise_iff_get.mp hsorted ⟨i, Nat.lt_of_succ_lt hi⟩ ⟨i + 1, hi⟩
    (Fin.mk_lt_mk.mpr (Nat.lt_succ_self i))

theorem c8_summary_length :
    (calculate_species_volume_summary c8_table c8_cfg).length = 2 := by
  simp only [calculate_species_volume_summary,
    show species_column c8_table.headers = some "Nome comum" from by decide]
  rw [if_neg (by decide), (List.perm_insertionSort speciesGE _).length_eq,
    List.length_map]
  decide

/-- Witness for C8: the two-species table `c8_table`, via `spec_c8`. -/
theorem spec_c8_witness :
    0 + 1 < (calculate_species_volume_summary c8_table c8_cfg).length
    ∧ ((calculate_species_volume_summary c8_table c8_cfg).get
          ⟨0 + 1, by rw [c8_summary_length]; decide⟩).vthaSum
        ≤ ((calculate_species_volume_summary c8_table c8_cfg).get
          ⟨0, by rw [c8_summary_length]; decide⟩).vthaSum :=
  ⟨by rw [c8_summary_length]; decide,
    spec_c8 c8_table c8_cfg 0 (by rw [c8_summary_length]; decide)⟩

/-- C9: when no header matches a species keyword, or the detected species
column is entirely empty, both the species volume summary and the species
count table are empty (no exception is raised: the functions are total). -/
theorem spec_c9 (t : STable) (cfg : Config)
    (h : ∀ col, species_column t.headers = some col →
      t.rows.all (fun r => r.cells col == SCell.na) = true) :
    calculate_species_volume_summary t cfg = [] ∧ calculate_species_count_table t = [] := by
  rcases hcol : species_column t.headers with _ | col
  · constructor <;>
      simp [calculate_species_volume_summary, calculate_species_count_table, hcol]
  · have hall := h col hcol
    constructor <;>
      simp [calculate_species_volume_summary, calculate_species_count_table, hcol, hall]

/-- Witness for C9: a table with no species-like header and a table whose
species column holds only missing values, via `spec_c9`. -/
theorem spec_c9_witness :
    (calculate_species_volume_summary c9_table c9_cfg = []
      ∧ calculate_species_count_table c9_table = [])
    ∧ (calculate_species_volume_summary c9_table2 c9_cfg = []
      ∧ calculate_species_count_table c9_table2 = []) := by
  have hnone : species_column c9_table.headers = none := by decide
  have hsome : species_column c9_table2.headers = some "Nome comum" := by decide
  refine ⟨spec_c9 c9_table c9_cfg ?_, spec_c9 c9_table2 c9_cfg ?_⟩
  · intro col hcol
    rw [hnone] at hcol
    cases hcol
  · intro col hcol
    rw [hsome] at hcol
    injection hcol with hc
    subst hc
    decide

/-- C10 (amended): the Species Aggregator groups by the first column in
column order whose header matches a species keyword. This is never the
synthesized composite when the Column Normalizer created it (the composite is
appended after all renamed columns), and it is the common-name column exactly
when no other species-like column — such as a scientific-name column
originally listed before the common-name column — precedes it. -/
theorem spec_c10_amended :
    (∀ H : List String,
      ("Nome comum" ∈ mapHeadersGo H [] [] ∨ "Nome científico" ∈ mapHeadersGo H [] []) →
      "Nome comum/científico" ∉ mapHeadersGo H [] [] →
      detect_and_map_headers H = mapHeadersGo H [] [] ++ ["Nome comum/científico"])
    ∧ (∀ (pre post : List String), (∀ x ∈ pre, isSpeciesHeader x = false) →
      species_column (pre ++ "Nome comum" :: post) = some "Nome comum") := by
  constructor
  · intro H hor hnot
    simp only [detect_and_map_headers]
    rw [if_pos hor, if_neg hnot]
  · intro pre post hpre
    rw [species_column, List.find?_append]
    have h1 : pre.find? isSpeciesHeader = none :=
      List.find?_eq_none.mpr (fun x hx => by simp [hpre x hx])
    rw [h1, List.find?_cons_of_pos _ (by decide)]
    rfl

/-- Witness for C10 (amended): a sheet holding only a common-name column gets
the composite appended after it, and with no species-like column before it
the scan picks `Nome comum`; via `spec_c10_amended`. -/
theorem spec_c10_witness :
    detect_and_map_headers ["NOME COMUM"]
        = mapHeadersGo ["NOME COMUM"] [] [] ++ ["Nome comum/científico"]
    ∧ species_column (["CAP (cm)"] ++ "Nome comum" :: []) = some "Nome comum" :=
  ⟨spec_c10_amended.1 ["NOME COMUM"] (Or.inl (by decide)) (by decide),
    spec_c10_amended.2 ["CAP (cm)"] [] (by decide)⟩

/-- Counterexample for C10 as stated: on a sheet whose scientific-name column
precedes the common-name column, the Normalizer produces both `Nome comum`
and the composite, yet the Species Aggregator's header scan picks
`Nome científico` — not the common-name column. -/
theorem spec_c10_counterexample :
    detect_and_map_headers ["NOME CIENTÍFICO", "NOME COMUM", "CAP (cm)", "HT(m)"]
      = ["Nome científico", "Nome comum", "CAP (cm)", "HT (m)", "Nome comum/científico"]
    ∧ "Nome comum"
        ∈ detect_and_map_headers ["NOME CIENTÍFICO", "NOME COMUM", "CAP (cm)", "HT(m)"]
    ∧ "Nome comum/científico"
        ∈ detect_and_map_headers ["NOME CIENTÍFICO", "NOME COMUM", "CAP (cm)", "HT(m)"]
    ∧ species_column
        (detect_and_map_headers ["NOME CIENTÍFICO", "NOME COMUM", "CAP (cm)", "HT(m)"])
      = some "Nome científico"
    ∧ ("Nome científico" : String) ≠ "Nome comum" := by
  refine ⟨by decide, by decide, by decide, by decide, by decide⟩
